import Mathlib

/-
Verification of the pointer-quest WASM animation engine
(src/pointer-quest-wasm/src/lib.rs) against its specification.

The engine state is embedded shallowly:
  * `HashMap<String, V>` becomes an association list `List (String × V)`;
    insertion replaces the first entry with the same key or appends.
  * `f64` values become exact rationals `ℚ`.  The platform sine function
    `f64::sin` is an external transcendental routine; it is modelled as an
    explicit parameter `sinq : ℚ → ℚ` of the stepper (its only relevant
    property, range ⊆ [-1, 1], is taken as a hypothesis where needed).
    `f64::consts::PI` is the exact rational value of the IEEE-754 double
    nearest π.
  * the host clock reading `performance.now()` is an explicit parameter.
  * `render`'s DOM interaction is modelled by an abstract document
    `String → Option DomElem`; Rust `.unwrap()` on a missing value is the
    outcome `panicked`, `?` on an `Err` is the outcome `err`.
-/

namespace PQWasm

/-- Lookup in an association list: the first entry whose key equals `k`
(models `HashMap::get`). -/
def lookupAL {α : Type} (k : String) : List (String × α) → Option α
  | [] => none
  | kv :: rest => if kv.1 = k then some kv.2 else lookupAL k rest

/-- Insert into an association list: replace the first entry whose key
equals `k`, or append (models `HashMap::insert`). -/
def insertAL {α : Type} (k : String) (v : α) : List (String × α) → List (String × α)
  | [] => [(k, v)]
  | kv :: rest => if kv.1 = k then (k, v) :: rest else kv :: insertAL k v rest

/-- Remove the first entry whose key equals `k` (models `HashMap::remove`). -/
def removeAL {α : Type} (k : String) : List (String × α) → List (String × α)
  | [] => []
  | kv :: rest => if kv.1 = k then rest else kv :: removeAL k rest

/-- Number of entries stored under key `k`. -/
def countKeyAL {α : Type} (k : String) : List (String × α) → Nat
  | [] => 0
  | kv :: rest => (if kv.1 = k then 1 else 0) + countKeyAL k rest

/-- The keys of the association list are pairwise distinct (the invariant a
`HashMap` maintains by construction). -/
def KeysNodup {α : Type} (l : List (String × α)) : Prop :=
  (l.map Prod.fst).Nodup

instance {α : Type} (l : List (String × α)) : Decidable (KeysNodup l) := by
  unfold KeysNodup; infer_instance

/-- struct Pointer3D (lib.rs lines 9-21). -/
structure Pointer3D where
  id : String
  start_x : ℚ
  start_y : ℚ
  start_z : ℚ
  end_x : ℚ
  end_y : ℚ
  end_z : ℚ
  color : String
  thickness : ℚ
  animated : Bool
  animation_progress : ℚ
deriving DecidableEq

/-- struct MemoryBlock3D (lib.rs lines 26-37). -/
structure MemoryBlock3D where
  id : String
  x : ℚ
  y : ℚ
  z : ℚ
  width : ℚ
  height : ℚ
  depth : ℚ
  color : String
  value : Option String
  memory_type : String
deriving DecidableEq

/-- struct AnimationEngine (lib.rs lines 41-46). -/
structure AnimationEngine where
  pointers : List (String × Pointer3D)
  memory_blocks : List (String × MemoryBlock3D)
  animation_speed : ℚ
  last_frame_time : ℚ
deriving DecidableEq

/-- AnimationEngine::new (lib.rs lines 51-60); `now` is the host clock
reading `performance.now()` taken at construction. -/
def engineNew (now : ℚ) : AnimationEngine :=
  { pointers := []
    memory_blocks := []
    animation_speed := 1
    last_frame_time := now }

/-- AnimationEngine::add_pointer (lib.rs lines 63-66); the binding-layer
deserialization is assumed to have produced the structured `ptr`. -/
def add_pointer (st : AnimationEngine) (ptr : Pointer3D) : AnimationEngine :=
  { st with pointers := insertAL ptr.id ptr st.pointers }

/-- AnimationEngine::add_memory_block (lib.rs lines 69-72). -/
def add_memory_block (st : AnimationEngine) (blk : MemoryBlock3D) : AnimationEngine :=
  { st with memory_blocks := insertAL blk.id blk st.memory_blocks }

/-- AnimationEngine::remove_pointer (lib.rs lines 75-77). -/
def remove_pointer (st : AnimationEngine) (id : String) : AnimationEngine :=
  { st with pointers := removeAL id st.pointers }

/-- AnimationEngine::remove_memory_block (lib.rs lines 80-82). -/
def remove_memory_block (st : AnimationEngine) (id : String) : AnimationEngine :=
  { st with memory_blocks := removeAL id st.memory_blocks }

/-- Body of the `if let Some(pointer)` branch of
AnimationEngine::update_pointer_position (lib.rs lines 87-89): replace the
end coordinates, leave every other field. -/
def setEnd (p : Pointer3D) (x y z : ℚ) : Pointer3D :=
  { p with end_x := x, end_y := y, end_z := z }

/-- AnimationEngine::update_pointer_position (lib.rs lines 85-91): the entry
stored under `id`, when present, gets its end coordinates replaced. -/
def update_pointer_position (st : AnimationEngine) (id : String)
    (end_x end_y end_z : ℚ) : AnimationEngine :=
  { st with pointers := st.pointers.map (fun kv =>
      if kv.1 = id then (kv.1, setEnd kv.2 end_x end_y end_z) else kv) }

/-- The exact rational value of `f64::consts::PI` (the IEEE-754 double
nearest π). -/
def pi64 : ℚ := 884279719003555 / 281474976710656

/-- Loop body of AnimationEngine::animate (lib.rs lines 100-112) for one
pointer: when `animated`, advance the progress by `inc`, wrap strictly-above-1
values to 0, then derive the pulse thickness; otherwise leave the pointer
untouched.  `sinq` models the platform sine. -/
def stepPointer (sinq : ℚ → ℚ) (inc : ℚ) (ptr : Pointer3D) : Pointer3D :=
  if ptr.animated then
    let p1 := ptr.animation_progress + inc
    let p2 := if 1 < p1 then 0 else p1
    let pulse := sinq (p2 * pi64 * 2)
    { ptr with animation_progress := p2, thickness := 3 + pulse * 2 }
  else ptr

/-- AnimationEngine::animate (lib.rs lines 94-113).  The `delta_time`
argument is reproduced from the source signature; the body reads the host
clock (`clock` models `performance.now()`), derives
`actual_delta = (clock - last_frame_time) / 1000`, stores the clock reading
and steps every pointer by `actual_delta * animation_speed`. -/
def animate (st : AnimationEngine) (delta_time : ℚ) (clock : ℚ)
    (sinq : ℚ → ℚ) : AnimationEngine :=
  let actual_delta := (clock - st.last_frame_time) / 1000
  { st with
    last_frame_time := clock
    pointers := st.pointers.map (fun kv =>
      (kv.1, stepPointer sinq (actual_delta * st.animation_speed) kv.2)) }

/-- AnimationEngine::get_pointer_count (lib.rs lines 204-206). -/
def get_pointer_count (st : AnimationEngine) : Nat :=
  st.pointers.length

/-- AnimationEngine::get_memory_block_count (lib.rs lines 209-211). -/
def get_memory_block_count (st : AnimationEngine) : Nat :=
  st.memory_blocks.length

/-- AnimationEngine::set_animation_speed (lib.rs lines 214-216):
`speed.max(0.1).min(5.0)`. -/
def set_animation_speed (st : AnimationEngine) (speed : ℚ) : AnimationEngine :=
  { st with animation_speed := min (max speed (1/10)) 5 }

/-- AnimationEngine::reset (lib.rs lines 219-222). -/
def reset (st : AnimationEngine) : AnimationEngine :=
  { st with pointers := [], memory_blocks := [] }

/-- Error class carried by `Result<(), JsValue>` in `render`: a `JsValue`
error propagated by `?` (from `get_context` or a failed `dyn_into` cast). -/
inductive RenderErr where
  | castError
  | jsError
deriving DecidableEq

/-- Observable outcome of a `render` call: normal return, an `Err` returned
to the caller, or a Rust panic (an `.unwrap()` on a missing value). -/
inductive ROutcome where
  | ok
  | err (e : RenderErr)
  | panicked
deriving DecidableEq

/-- Result of `canvas.get_context("2d")`, which in Rust is
`Result<Option<Object>, JsValue>`: an `Err`, an `Ok(None)`, or an
`Ok(Some ctx)` whose cast to `CanvasRenderingContext2d` succeeds iff `is2d`;
`fillTextOk` tells whether `fill_text` calls on the context succeed. -/
inductive Ctx2dResult where
  | errVal
  | noneVal
  | ctx (is2d : Bool) (fillTextOk : Bool)
deriving DecidableEq

/-- A DOM element as `render` observes it: whether the
`dyn_into::<HtmlCanvasElement>` cast succeeds, and what `get_context("2d")`
returns. -/
structure DomElem where
  isCanvas : Bool
  context2d : Ctx2dResult
deriving DecidableEq

/-- AnimationEngine::render (lib.rs lines 116-143) together with the draw
helpers it calls.  `dom` models `document.get_element_by_id`.  The source
calls `.unwrap()` on the element lookup and on the `Ok` payload of
`get_context`, so a missing element or an `Ok(None)` context panics; the
`?` operator turns cast failures and `get_context` errors into `Err`.
Drawing itself is infallible except `fill_text(...).unwrap()` inside
`render_memory_block`, executed for each block carrying a `value`. -/
def render (dom : String → Option DomElem) (st : AnimationEngine)
    (canvas_id : String) : ROutcome :=
  match dom canvas_id with
  | none => ROutcome.panicked
  | some el =>
    if el.isCanvas then
      match el.context2d with
      | Ctx2dResult.errVal => ROutcome.err RenderErr.jsError
      | Ctx2dResult.noneVal => ROutcome.panicked
      | Ctx2dResult.ctx is2d fillTextOk =>
        if is2d then
          if (st.memory_blocks.any (fun kv => kv.2.value.isSome)) && !fillTextOk then
            ROutcome.panicked
          else
            ROutcome.ok
        else ROutcome.err RenderErr.castError
    else ROutcome.err RenderErr.castError

/-- Looking up the key just inserted yields the inserted value. -/
theorem lookupAL_insertAL_self {α : Type} (k : String) (v : α) (l : List (String × α)) :
    lookupAL k (insertAL k v l) = some v := by
  induction l with
  | nil => simp [insertAL, lookupAL]
  | cons kv rest ih =>
    by_cases h : kv.1 = k
    · simp [insertAL, h, lookupAL]
    · simp [insertAL, h, lookupAL, ih]

/-- Inserting a key that is already present replaces an entry in place and
keeps the length. -/
theorem length_insertAL_of_lookup {α : Type} (k : String) (v w : α)
    (l : List (String × α)) (h : lookupAL k l = some w) :
    (insertAL k v l).length = l.length := by
  induction l with
  | nil => simp [lookupAL] at h
  | cons kv rest ih =>
    by_cases hk : kv.1 = k
    · simp [insertAL, hk]
    · simp only [lookupAL, if_neg hk] at h
      simp [insertAL, hk, ih h]

/-- Every key of `insertAL k v l` is `k` or a key of `l`. -/
theorem mem_keys_insertAL {α : Type} {x k : String} {v : α} {l : List (String × α)}
    (h : x ∈ (insertAL k v l).map Prod.fst) : x = k ∨ x ∈ l.map Prod.fst := by
  induction l with
  | nil =>
    simp [insertAL] at h
    exact Or.inl h
  | cons kv rest ih =>
    by_cases hk : kv.1 = k
    · simp only [insertAL, if_pos hk, List.map_cons, List.mem_cons] at h
      rcases h with h | h
      · exact Or.inl h
      · exact Or.inr (by simp only [List.map_cons, List.mem_cons]; exact Or.inr h)
    · simp only [insertAL, if_neg hk, List.map_cons, List.mem_cons] at h
      rcases h with h | h
      · exact Or.inr (by simp only [List.map_cons, List.mem_cons]; exact Or.inl h)
      · rcases ih h with h1 | h1
        · exact Or.inl h1
        · exact Or.inr (by simp only [List.map_cons, List.mem_cons]; exact Or.inr h1)

/-- `insertAL` preserves distinctness of keys. -/
theorem keysNodup_insertAL {α : Type} (k : String) (v : α) (l : List (String × α))
    (h : KeysNodup l) : KeysNodup (insertAL k v l) := by
  induction l with
  | nil => simp [insertAL, KeysNodup]
  | cons kv rest ih =>
    unfold KeysNodup at h ⊢
    simp only [List.map_cons, List.nodup_cons] at h
    by_cases hk : kv.1 = k
    · subst hk
      simpa [insertAL, List.nodup_cons] using h
    · simp only [insertAL, if_neg hk, List.map_cons, List.nodup_cons]
      refine ⟨fun hmem => ?_, ih h.2⟩
      rcases mem_keys_insertAL hmem with h1 | h1
      · exact hk h1
      · exact h.1 h1

/-- A key that heads no entry is counted zero times. -/
theorem countKeyAL_eq_zero {α : Type} {k : String} {l : List (String × α)}
    (h : k ∉ l.map Prod.fst) : countKeyAL k l = 0 := by
  induction l with
  | nil => rfl
  | cons kv rest ih =>
    simp only [List.map_cons, List.mem_cons] at h
    push_neg at h
    have hne : ¬(kv.1 = k) := fun he => h.1 he.symm
    simp [countKeyAL, hne, ih h.2]

/-- On a map with distinct keys, inserting under `k` leaves exactly one
entry stored under `k`. -/
theorem countKeyAL_insertAL {α : Type} (k : String) (v : α) (l : List (String × α))
    (h : KeysNodup l) : countKeyAL k (insertAL k v l) = 1 := by
  induction l with
  | nil => simp [insertAL, countKeyAL]
  | cons kv rest ih =>
    unfold KeysNodup at h
    simp only [List.map_cons, List.nodup_cons] at h
    by_cases hk : kv.1 = k
    · subst hk
      simp [insertAL, countKeyAL, countKeyAL_eq_zero h.1]
    · simp [insertAL, hk, countKeyAL, ih h.2]

/-- Effect of a keyed in-place update on lookups: the entry under `i` is
transformed, every other lookup is unchanged. -/
theorem lookupAL_map_update {α : Type} (i k : String) (f : α → α)
    (l : List (String × α)) :
    lookupAL k (l.map (fun kv => if kv.1 = i then (kv.1, f kv.2) else kv)) =
      if k = i then (lookupAL k l).map f else lookupAL k l := by
  induction l with
  | nil => simp [lookupAL]
  | cons kv rest ih =>
    by_cases hkk : kv.1 = k
    · by_cases hik : k = i
      · have hki : kv.1 = i := hkk.trans hik
        simp [lookupAL, hkk, hki, hik]
      · have hki : ¬(kv.1 = i) := fun h => hik (hkk.symm.trans h)
        simp [lookupAL, hkk, hki, hik]
    · by_cases hki : kv.1 = i
      · have hik : ¬(i = k) := fun h => hkk (hki.trans h)
        simp [lookupAL, List.map_cons, hkk, hki, hik, ih]
      · simp [lookupAL, List.map_cons, hkk, hki, ih]

/-- A keyed in-place update under an absent key is the identity. -/
theorem map_update_of_lookup_none {α : Type} (i : String) (f : α → α)
    (l : List (String × α)) (h : lookupAL i l = none) :
    l.map (fun kv => if kv.1 = i then (kv.1, f kv.2) else kv) = l := by
  induction l with
  | nil => rfl
  | cons kv rest ih =>
    simp only [lookupAL] at h
    by_cases hk : kv.1 = i
    · simp [hk] at h
    · simp only [List.map_cons, if_neg hk]
      rw [ih (by simpa [hk] using h)]

/-- Specialization of `lookupAL_map_update` to the end-coordinate update. -/
theorem lookupAL_setEnd_map (i k : String) (x y z : ℚ)
    (l : List (String × Pointer3D)) :
    lookupAL k (l.map (fun kv => if kv.1 = i then (kv.1, setEnd kv.2 x y z) else kv)) =
      if k = i then (lookupAL k l).map (fun q => setEnd q x y z) else lookupAL k l :=
  lookupAL_map_update i k (fun q => setEnd q x y z) l

/-- Specialization of `map_update_of_lookup_none` to the end-coordinate
update. -/
theorem setEnd_map_of_lookup_none (i : String) (x y z : ℚ)
    (l : List (String × Pointer3D)) (h : lookupAL i l = none) :
    l.map (fun kv => if kv.1 = i then (kv.1, setEnd kv.2 x y z) else kv) = l :=
  map_update_of_lookup_none i (fun q => setEnd q x y z) l h

/-- The stepper never flips the `animated` flag. -/
theorem stepPointer_animated (sinq : ℚ → ℚ) (inc : ℚ) (p : Pointer3D) :
    (stepPointer sinq inc p).animated = p.animated := by
  unfold stepPointer
  by_cases h : p.animated <;> simp [h]

/-- On an animated pointer the stepper advances and wraps the progress. -/
theorem stepPointer_progress (sinq : ℚ → ℚ) (inc : ℚ) (p : Pointer3D)
    (h : p.animated = true) :
    (stepPointer sinq inc p).animation_progress =
      if 1 < p.animation_progress + inc then 0 else p.animation_progress + inc := by
  simp [stepPointer, h]

/-- On an animated pointer the stepper rederives the thickness from the
wrapped progress. -/
theorem stepPointer_thickness (sinq : ℚ → ℚ) (inc : ℚ) (p : Pointer3D)
    (h : p.animated = true) :
    (stepPointer sinq inc p).thickness =
      3 + sinq ((if 1 < p.animation_progress + inc then 0
                 else p.animation_progress + inc) * pi64 * 2) * 2 := by
  simp [stepPointer, h]

/-- A non-animated pointer passes through the stepper untouched. -/
theorem stepPointer_not_animated (sinq : ℚ → ℚ) (inc : ℚ) (p : Pointer3D)
    (h : p.animated = false) : stepPointer sinq inc p = p := by
  simp [stepPointer, h]

/-- After the wrap, an animated pointer's progress never exceeds 1. -/
theorem stepPointer_progress_le_one (sinq : ℚ → ℚ) (inc : ℚ) (p : Pointer3D)
    (h : p.animated = true) : (stepPointer sinq inc p).animation_progress ≤ 1 := by
  rw [stepPointer_progress sinq inc p h]
  by_cases hgt : 1 < p.animation_progress + inc
  · rw [if_pos hgt]; norm_num
  · rw [if_neg hgt]; exact not_lt.mp hgt

/-- A concrete animated pointer used to exercise `animate`. -/
def ptrC1 : Pointer3D :=
  { id := "p1", start_x := 0, start_y := 0, start_z := 0,
    end_x := 1, end_y := 0, end_z := 0, color := "cyan",
    thickness := 3, animated := true, animation_progress := 0 }

/-- Claim C1 counterexample: calling `animate` with argument 500 while the
host clock reads 1000 (previous frame at 0) stores 1000 — not the supplied
argument — as the last frame time, and advances the animated pointer by the
clock-derived elapsed second (progress 1), not by the argument-derived half
second (progress 1/2).  The resulting state does not depend on the supplied
timestamp argument. -/
theorem c1_step_argument_ignored_counterexample :
    (animate (add_pointer (engineNew 0) ptrC1) 500 1000 (fun _ => 0)).last_frame_time = 1000 ∧
    (1000 : ℚ) ≠ 500 ∧
    (lookupAL "p1" (animate (add_pointer (engineNew 0) ptrC1) 500 1000
        (fun _ => 0)).pointers).map Pointer3D.animation_progress = some 1 ∧
    (1 : ℚ) ≠ (500 - 0) / 1000 := by
  refine ⟨rfl, by norm_num, ?_, by norm_num⟩
  norm_num [animate, add_pointer, engineNew, insertAL, stepPointer, lookupAL, ptrC1]

/-- Claim C1 (amended): `step` ignores its supplied timestamp argument — two
calls with different arguments but the same internal clock reading produce
identical states — and instead computes
`elapsed = (clockNow - lastFrameTimestamp) / 1000` from the internally read
host clock, sets `lastFrameTimestamp = clockNow`, and advances every pointer
by `elapsed * animationSpeed`; the argument and no-argument call forms are
equivalent precisely because the argument has no effect. -/
theorem c1_step_uses_internal_clock (st : AnimationEngine) (t t' clock : ℚ)
    (sinq : ℚ → ℚ) :
    animate st t clock sinq = animate st t' clock sinq ∧
    (animate st t clock sinq).last_frame_time = clock ∧
    (animate st t clock sinq).pointers = st.pointers.map (fun kv =>
      (kv.1, stepPointer sinq ((clock - st.last_frame_time) / 1000 * st.animation_speed) kv.2)) :=
  ⟨rfl, rfl, rfl⟩

/-- Claim C2: evaluating `render` at the failing inputs.  When the document
has no element under the requested id, `render` panics (the source unwraps
the `Option` returned by `get_element_by_id`) instead of returning a
`SurfaceNotFound` error; when the element resolves to a canvas whose
`get_context("2d")` returns `Ok(None)`, `render` panics (the source unwraps
the `Option` inside the `Ok`) instead of returning
`SurfaceContextUnavailable`. -/
theorem c2_render_panics_on_missing_surface :
    render (fun _ => none) (engineNew 0) "pq-canvas" = ROutcome.panicked ∧
    render (fun _ => some { isCanvas := true, context2d := Ctx2dResult.noneVal })
        (engineNew 0) "pq-canvas" = ROutcome.panicked :=
  ⟨rfl, rfl⟩

/-- Claim C6: `reset()` empties both mappings — both counts become 0 — while
leaving `animationSpeed` unchanged at its previously set value. -/
theorem c6_reset_clears_content_not_config (st : AnimationEngine) :
    (reset st).pointers = [] ∧ (reset st).memory_blocks = [] ∧
    get_pointer_count (reset st) = 0 ∧ get_memory_block_count (reset st) = 0 ∧
    (reset st).animation_speed = st.animation_speed :=
  ⟨rfl, rfl, rfl, rfl, rfl⟩

/-- Claim C7: `setAnimationSpeed(speed)` stores `speed` clamped to
`[0.1, 5.0]` and never rejects the input; in particular `-5` stores `0.1`
and `100` stores `5.0`. -/
theorem c7_set_animation_speed_clamps (st : AnimationEngine) (speed : ℚ) :
    (set_animation_speed st speed).animation_speed = min (max speed (1/10)) 5 ∧
    1/10 ≤ (set_animation_speed st speed).animation_speed ∧
    (set_animation_speed st speed).animation_speed ≤ 5 ∧
    (set_animation_speed st (-5)).animation_speed = 1/10 ∧
    (set_animation_speed st 100).animation_speed = 5 := by
  refine ⟨rfl, ?_, ?_, ?_, ?_⟩
  · exact le_min (le_max_right _ _) (by norm_num)
  · exact min_le_right _ _
  · show min (max (-5 : ℚ) (1/10)) 5 = 1/10
    norm_num
  · show min (max (100 : ℚ) (1/10)) 5 = 5
    norm_num

/-- A pointer whose descriptor carries an animation progress outside `[0,1)`
and a thickness outside `[1,5]`. -/
def ptrC10 : Pointer3D :=
  { id := "wild", start_x := 0, start_y := 0, start_z := 0,
    end_x := 1, end_y := 1, end_z := 1, color := "red",
    thickness := 42, animated := true, animation_progress := 7 }

/-- Claim C10: `addPointer` stores the supplied descriptor verbatim — the
entry under the descriptor's id is the descriptor itself, with no clamping
or normalization, even when its `animationProgress` lies outside `[0,1)`
and its `thickness` lies outside `[1,5]` — and touches nothing else in the
engine state. -/
theorem c10_add_pointer_stores_verbatim (st : AnimationEngine) (p : Pointer3D) :
    lookupAL p.id (add_pointer st p).pointers = some p ∧
    (add_pointer st p).memory_blocks = st.memory_blocks ∧
    (add_pointer st p).animation_speed = st.animation_speed ∧
    (add_pointer st p).last_frame_time = st.last_frame_time ∧
    lookupAL "wild" (add_pointer (engineNew 0) ptrC10).pointers = some ptrC10 ∧
    ptrC10.animation_progress = 7 ∧ ¬(ptrC10.animation_progress < 1) ∧
    ptrC10.thickness = 42 ∧ ¬(ptrC10.thickness ≤ 5) := by
  refine ⟨lookupAL_insertAL_self _ _ _, rfl, rfl, rfl, by decide, by decide,
    by decide, by decide, by decide⟩

/-- A pointer added with an animation progress already outside `[0,1)`. -/
def ptrC3 : Pointer3D :=
  { id := "c3", start_x := 0, start_y := 0, start_z := 0,
    end_x := 1, end_y := 1, end_z := 0, color := "orange",
    thickness := 3, animated := true, animation_progress := 2 }

/-- Claim C3 counterexample: the state reached from a fresh engine by the
single public operation `addPointer` with a descriptor carrying
`animationProgress = 2` stores that pointer with progress `2`, which does
not lie in `[0, 1)` — the interval is not an invariant of all reachable
states. -/
theorem c3_progress_invariant_counterexample :
    lookupAL "c3" (add_pointer (engineNew 0) ptrC3).pointers = some ptrC3 ∧
    ptrC3.animation_progress = 2 ∧ ¬(ptrC3.animation_progress < 1) := by
  refine ⟨by decide, by decide, by decide⟩

/-- Claim C3 (amended): the stepper keeps every animated pointer's
`animationProgress` inside the closed interval `[0, 1]` — not `[0, 1)`,
since the wrap fires only strictly above `1.0` — provided the clock does
not run backwards, the speed is nonnegative and the stored animated
pointers start inside `[0, 1]`; the interval is not an invariant of all
reachable states because `addPointer` stores the supplied progress
verbatim.  The wrap carries no overshoot forward: any step pushing the
progress strictly above `1.0` resets it to exactly `0.0`. -/
theorem c3_progress_interval_preserved_by_step (st : AnimationEngine)
    (delta clock : ℚ) (sinq : ℚ → ℚ)
    (hspeed : 0 ≤ st.animation_speed) (hclock : st.last_frame_time ≤ clock)
    (hst : ∀ kv ∈ st.pointers, kv.2.animated = true →
      0 ≤ kv.2.animation_progress ∧ kv.2.animation_progress ≤ 1) :
    (∀ kv ∈ (animate st delta clock sinq).pointers, kv.2.animated = true →
      0 ≤ kv.2.animation_progress ∧ kv.2.animation_progress ≤ 1) ∧
    (∀ (p : Pointer3D) (inc : ℚ), p.animated = true →
      1 < p.animation_progress + inc →
      (stepPointer sinq inc p).animation_progress = 0) := by
  constructor
  · intro kv hmem hanim
    simp only [animate, List.mem_map] at hmem
    obtain ⟨kv0, hkv0, hkve⟩ := hmem
    subst hkve
    dsimp only at hanim ⊢
    have hinc : 0 ≤ (clock - st.last_frame_time) / 1000 * st.animation_speed := by
      have h1 : (0 : ℚ) ≤ clock - st.last_frame_time := by linarith
      have h2 : (0 : ℚ) ≤ (clock - st.last_frame_time) / 1000 := by positivity
      exact mul_nonneg h2 hspeed
    by_cases h0 : kv0.2.animated = true
    · constructor
      · rw [stepPointer_progress _ _ _ h0]
        by_cases hgt : 1 < kv0.2.animation_progress +
            (clock - st.last_frame_time) / 1000 * st.animation_speed
        · rw [if_pos hgt]
        · rw [if_neg hgt]
          have := (hst kv0 hkv0 h0).1
          linarith
      · exact stepPointer_progress_le_one _ _ _ h0
    · exfalso
      have hpres := stepPointer_animated sinq
        ((clock - st.last_frame_time) / 1000 * st.animation_speed) kv0.2
      rw [hanim] at hpres
      exact h0 hpres.symm
  · intro p inc hp hgt
    rw [stepPointer_progress _ _ _ hp, if_pos hgt]

/-- An animated pointer with in-range progress, for exercising the stepper
preservation theorem. -/
def ptrC3w : Pointer3D :=
  { id := "w3", start_x := 0, start_y := 0, start_z := 0,
    end_x := 2, end_y := 2, end_z := 0, color := "violet",
    thickness := 3, animated := true, animation_progress := 1/2 }

/-- Witness for the amended claim C3: a fresh engine holding one animated
pointer with progress 1/2, stepped while the clock reads 800, keeps the
progress inside `[0, 1]`. -/
theorem c3_progress_interval_preserved_by_step_witness :
    (0 : ℚ) ≤ (add_pointer (engineNew 0) ptrC3w).animation_speed ∧
    (add_pointer (engineNew 0) ptrC3w).last_frame_time ≤ 800 ∧
    ("w3", stepPointer (fun _ => 0)
        ((800 - (add_pointer (engineNew 0) ptrC3w).last_frame_time) / 1000 *
          (add_pointer (engineNew 0) ptrC3w).animation_speed) ptrC3w) ∈
      (animate (add_pointer (engineNew 0) ptrC3w) 0 800 (fun _ => 0)).pointers ∧
    0 ≤ (stepPointer (fun _ => 0)
        ((800 - (add_pointer (engineNew 0) ptrC3w).last_frame_time) / 1000 *
          (add_pointer (engineNew 0) ptrC3w).animation_speed) ptrC3w).animation_progress ∧
    (stepPointer (fun _ => 0)
        ((800 - (add_pointer (engineNew 0) ptrC3w).last_frame_time) / 1000 *
          (add_pointer (engineNew 0) ptrC3w).animation_speed) ptrC3w).animation_progress ≤ 1 := by
  have happ := (c3_progress_interval_preserved_by_step (add_pointer (engineNew 0) ptrC3w)
      0 800 (fun _ => 0) (by norm_num [add_pointer, engineNew])
      (by norm_num [add_pointer, engineNew])
      (by intro kv hkv _
          simp only [add_pointer, engineNew, insertAL] at hkv
          simp only [List.mem_singleton] at hkv
          subst hkv
          exact ⟨by norm_num [ptrC3w], by norm_num [ptrC3w]⟩)).1
      ("w3", stepPointer (fun _ => 0)
        ((800 - (add_pointer (engineNew 0) ptrC3w).last_frame_time) / 1000 *
          (add_pointer (engineNew 0) ptrC3w).animation_speed) ptrC3w)
      (by simp [animate, add_pointer, engineNew, insertAL, ptrC3w]) (by decide)
  exact ⟨by norm_num [add_pointer, engineNew], by norm_num [add_pointer, engineNew],
    by simp [animate, add_pointer, engineNew, insertAL, ptrC3w], happ.1, happ.2⟩

/-- An animated pointer sitting just below the wrap boundary. -/
def ptrC4 : Pointer3D :=
  { id := "w4", start_x := 0, start_y := 0, start_z := 0,
    end_x := 1, end_y := 2, end_z := 3, color := "yellow",
    thickness := 3, animated := true, animation_progress := 3/4 }

/-- Claim C4: for an animated pointer, a step whose increment pushes the
progress strictly above `1.0` resets it to exactly `0.0` within that step;
the progress is never strictly greater than `1.0` after any step (for any
animated pointer in the stepped engine state); and the boundary is strict —
a progress landing exactly on `1.0` is retained. -/
theorem c4_wrap_is_strict (sinq : ℚ → ℚ) :
    (∀ (p : Pointer3D) (inc : ℚ), p.animated = true →
      (1 < p.animation_progress + inc →
        (stepPointer sinq inc p).animation_progress = 0) ∧
      (stepPointer sinq inc p).animation_progress ≤ 1 ∧
      (p.animation_progress + inc = 1 →
        (stepPointer sinq inc p).animation_progress = 1)) ∧
    (∀ (st : AnimationEngine) (delta clock : ℚ) (kv : String × Pointer3D),
      kv ∈ (animate st delta clock sinq).pointers → kv.2.animated = true →
      kv.2.animation_progress ≤ 1) := by
  constructor
  · intro p inc hp
    refine ⟨?_, stepPointer_progress_le_one _ _ _ hp, ?_⟩
    · intro hgt
      rw [stepPointer_progress _ _ _ hp, if_pos hgt]
    · intro heq
      rw [stepPointer_progress _ _ _ hp, heq]
      norm_num
  · intro st delta clock kv hmem hanim
    simp only [animate, List.mem_map] at hmem
    obtain ⟨kv0, hkv0, hkve⟩ := hmem
    subst hkve
    dsimp only at hanim ⊢
    by_cases h0 : kv0.2.animated = true
    · exact stepPointer_progress_le_one _ _ _ h0
    · exfalso
      have hpres := stepPointer_animated sinq
        ((clock - st.last_frame_time) / 1000 * st.animation_speed) kv0.2
      rw [hanim] at hpres
      exact h0 hpres.symm

/-- Witness for claim C4: stepping the pointer at progress 3/4 by 1/2
overshoots 1 and wraps to exactly 0, and stepping it by 1/4 lands exactly
on 1 and is retained. -/
theorem c4_wrap_is_strict_witness :
    ptrC4.animated = true ∧
    (1 : ℚ) < ptrC4.animation_progress + 1/2 ∧
    (stepPointer (fun _ => 0) (1/2) ptrC4).animation_progress = 0 ∧
    ptrC4.animation_progress + 1/4 = 1 ∧
    (stepPointer (fun _ => 0) (1/4) ptrC4).animation_progress = 1 :=
  ⟨rfl, by norm_num [ptrC4],
    ((c4_wrap_is_strict (fun _ => 0)).1 ptrC4 (1/2) rfl).1 (by norm_num [ptrC4]),
    by norm_num [ptrC4],
    ((c4_wrap_is_strict (fun _ => 0)).1 ptrC4 (1/4) rfl).2.2 (by norm_num [ptrC4])⟩

/-- An animated pointer added with a thickness far outside `[1, 5]`. -/
def ptrC5 : Pointer3D :=
  { id := "c5", start_x := 0, start_y := 0, start_z := 0,
    end_x := 1, end_y := 0, end_z := 1, color := "magenta",
    thickness := 100, animated := true, animation_progress := 0 }

/-- Claim C5 counterexample: the state reached from a fresh engine by the
single public operation `addPointer` with an animated descriptor carrying
`thickness = 100` stores that animated pointer with thickness `100`, which
does not lie in `[1, 5]` — the bound does not hold at any time in every
reachable state, only after the stepper has rederived the thickness. -/
theorem c5_thickness_bound_counterexample :
    lookupAL "c5" (add_pointer (engineNew 0) ptrC5).pointers = some ptrC5 ∧
    ptrC5.animated = true ∧ ptrC5.thickness = 100 ∧ ¬(ptrC5.thickness ≤ 5) := by
  refine ⟨by decide, rfl, by decide, by decide⟩

/-- Claim C5 (amended): after any step, every animated pointer's thickness
lies in `[1.0, 5.0]`, because the stepper sets
`thickness = 3.0 + sin(progress · 2π) · 2.0` and the sine ranges over
`[-1, 1]`; before the first step the bound can fail, since `addPointer`
stores the supplied thickness verbatim. -/
theorem c5_thickness_bound_after_step (st : AnimationEngine) (delta clock : ℚ)
    (sinq : ℚ → ℚ) (hsin : ∀ q, -1 ≤ sinq q ∧ sinq q ≤ 1) :
    ∀ kv ∈ (animate st delta clock sinq).pointers, kv.2.animated = true →
      1 ≤ kv.2.thickness ∧ kv.2.thickness ≤ 5 := by
  intro kv hmem hanim
  simp only [animate, List.mem_map] at hmem
  obtain ⟨kv0, hkv0, hkve⟩ := hmem
  subst hkve
  dsimp only at hanim ⊢
  by_cases h0 : kv0.2.animated = true
  · rw [stepPointer_thickness _ _ _ h0]
    obtain ⟨hs1, hs2⟩ := hsin
      ((if 1 < kv0.2.animation_progress +
          (clock - st.last_frame_time) / 1000 * st.animation_speed then 0
        else kv0.2.animation_progress +
          (clock - st.last_frame_time) / 1000 * st.animation_speed) * pi64 * 2)
    constructor <;> linarith
  · exfalso
    have hpres := stepPointer_animated sinq
      ((clock - st.last_frame_time) / 1000 * st.animation_speed) kv0.2
    rw [hanim] at hpres
    exact h0 hpres.symm

/-- An animated pointer for exercising the thickness bound theorem. -/
def ptrC5w : Pointer3D :=
  { id := "w5", start_x := 1, start_y := 1, start_z := 1,
    end_x := 3, end_y := 3, end_z := 3, color := "blue",
    thickness := 100, animated := true, animation_progress := 0 }

/-- Witness for the amended claim C5: a fresh engine holding one animated
pointer (added with thickness 100), stepped while the clock reads 900 under
a sine model of constant value 0, yields thickness 3 ∈ [1, 5]. -/
theorem c5_thickness_bound_after_step_witness :
    ("w5", stepPointer (fun _ => 0)
        ((900 - (add_pointer (engineNew 0) ptrC5w).last_frame_time) / 1000 *
          (add_pointer (engineNew 0) ptrC5w).animation_speed) ptrC5w) ∈
      (animate (add_pointer (engineNew 0) ptrC5w) 0 900 (fun _ => 0)).pointers ∧
    1 ≤ (stepPointer (fun _ => 0)
        ((900 - (add_pointer (engineNew 0) ptrC5w).last_frame_time) / 1000 *
          (add_pointer (engineNew 0) ptrC5w).animation_speed) ptrC5w).thickness ∧
    (stepPointer (fun _ => 0)
        ((900 - (add_pointer (engineNew 0) ptrC5w).last_frame_time) / 1000 *
          (add_pointer (engineNew 0) ptrC5w).animation_speed) ptrC5w).thickness ≤ 5 := by
  have happ := c5_thickness_bound_after_step (add_pointer (engineNew 0) ptrC5w)
      0 900 (fun _ => 0) (fun q => ⟨by norm_num, by norm_num⟩)
      ("w5", stepPointer (fun _ => 0)
        ((900 - (add_pointer (engineNew 0) ptrC5w).last_frame_time) / 1000 *
          (add_pointer (engineNew 0) ptrC5w).animation_speed) ptrC5w)
      (by simp [animate, add_pointer, engineNew, insertAL, ptrC5w]) (by decide)
  exact ⟨by simp [animate, add_pointer, engineNew, insertAL, ptrC5w], happ.1, happ.2⟩

/-- First descriptor stored under the shared id "dup". -/
def ptrC8a : Pointer3D :=
  { id := "dup", start_x := 0, start_y := 0, start_z := 0,
    end_x := 1, end_y := 1, end_z := 1, color := "red",
    thickness := 1, animated := false, animation_progress := 0 }

/-- Second descriptor stored under the shared id "dup", with different
fields. -/
def ptrC8b : Pointer3D :=
  { id := "dup", start_x := 9, start_y := 9, start_z := 9,
    end_x := 8, end_y := 8, end_z := 8, color := "blue",
    thickness := 4, animated := true, animation_progress := 1/3 }

/-- Claim C8: `addPointer(p)` followed by `addPointer(p')` with the same id
leaves exactly one pointer stored under that id, with `p'`'s fields, and
`pointerCount()` is unchanged across the second call — `addPointer` is an
upsert and never errors on a duplicate id. -/
theorem c8_add_pointer_upsert (st : AnimationEngine) (p q : Pointer3D)
    (hnd : KeysNodup st.pointers) (hid : p.id = q.id) :
    lookupAL q.id (add_pointer (add_pointer st p) q).pointers = some q ∧
    countKeyAL q.id (add_pointer (add_pointer st p) q).pointers = 1 ∧
    get_pointer_count (add_pointer (add_pointer st p) q) =
      get_pointer_count (add_pointer st p) := by
  refine ⟨lookupAL_insertAL_self _ _ _, ?_, ?_⟩
  · exact countKeyAL_insertAL _ _ _ (keysNodup_insertAL _ _ _ hnd)
  · have hl : lookupAL q.id (add_pointer st p).pointers = some p := by
      rw [← hid]
      exact lookupAL_insertAL_self _ _ _
    exact length_insertAL_of_lookup _ _ _ _ hl

/-- Witness for claim C8: overwriting "dup" in a fresh engine leaves exactly
the second descriptor stored once, with the count still 1. -/
theorem c8_add_pointer_upsert_witness :
    KeysNodup (engineNew 0).pointers ∧ ptrC8a.id = ptrC8b.id ∧
    lookupAL ptrC8b.id
        (add_pointer (add_pointer (engineNew 0) ptrC8a) ptrC8b).pointers = some ptrC8b ∧
    countKeyAL ptrC8b.id
        (add_pointer (add_pointer (engineNew 0) ptrC8a) ptrC8b).pointers = 1 ∧
    get_pointer_count (add_pointer (add_pointer (engineNew 0) ptrC8a) ptrC8b) =
      get_pointer_count (add_pointer (engineNew 0) ptrC8a) := by
  have happ := c8_add_pointer_upsert (engineNew 0) ptrC8a ptrC8b (by decide) (by decide)
  exact ⟨by decide, by decide, happ.1, happ.2.1, happ.2.2⟩

/-- Claim C9: `updatePointerPosition(id, x, y, z)` is a no-op when `id` is
absent; when `id` is present it replaces only the end coordinates of that
pointer — id, start coordinates, color, thickness, animated flag and
animation progress are untouched — leaves every other pointer's entry
unchanged, and leaves the memory blocks, the animation speed and the last
frame time unchanged. -/
theorem c9_update_pointer_position_isolated (st : AnimationEngine)
    (id : String) (x y z : ℚ) :
    (lookupAL id st.pointers = none → update_pointer_position st id x y z = st) ∧
    (∀ p, lookupAL id st.pointers = some p →
      lookupAL id (update_pointer_position st id x y z).pointers = some (setEnd p x y z)) ∧
    (∀ k, ¬(k = id) → lookupAL k (update_pointer_position st id x y z).pointers =
      lookupAL k st.pointers) ∧
    (update_pointer_position st id x y z).memory_blocks = st.memory_blocks ∧
    (update_pointer_position st id x y z).animation_speed = st.animation_speed ∧
    (update_pointer_position st id x y z).last_frame_time = st.last_frame_time ∧
    (∀ p : Pointer3D,
      (setEnd p x y z).id = p.id ∧
      (setEnd p x y z).start_x = p.start_x ∧
      (setEnd p x y z).start_y = p.start_y ∧
      (setEnd p x y z).start_z = p.start_z ∧
      (setEnd p x y z).end_x = x ∧
      (setEnd p x y z).end_y = y ∧
      (setEnd p x y z).end_z = z ∧
      (setEnd p x y z).color = p.color ∧
      (setEnd p x y z).thickness = p.thickness ∧
      (setEnd p x y z).animated = p.animated ∧
      (setEnd p x y z).animation_progress = p.animation_progress) := by
  refine ⟨?_, ?_, ?_, rfl, rfl, rfl, ?_⟩
  · intro hnone
    simp only [update_pointer_position]
    rw [setEnd_map_of_lookup_none id x y z st.pointers hnone]
  · intro p hp
    simp only [update_pointer_position]
    rw [lookupAL_setEnd_map id id x y z st.pointers, if_pos rfl, hp]
    rfl
  · intro k hk
    simp only [update_pointer_position]
    rw [lookupAL_setEnd_map id k x y z st.pointers, if_neg hk]
  · intro p
    exact ⟨rfl, rfl, rfl, rfl, rfl, rfl, rfl, rfl, rfl, rfl, rfl⟩

/-- A non-animated pointer for exercising the position update. -/
def ptrC9 : Pointer3D :=
  { id := "mv", start_x := 4, start_y := 5, start_z := 6,
    end_x := 7, end_y := 8, end_z := 9, color := "green",
    thickness := 2, animated := false, animation_progress := 0 }

/-- Witness for claim C9: updating the stored pointer "mv" to end point
(1, 2, 3) replaces exactly its end coordinates, and lookups under a
different id are unchanged. -/
theorem c9_update_pointer_position_isolated_witness :
    lookupAL "mv" (add_pointer (engineNew 0) ptrC9).pointers = some ptrC9 ∧
    lookupAL "mv" (update_pointer_position (add_pointer (engineNew 0) ptrC9)
        "mv" 1 2 3).pointers = some (setEnd ptrC9 1 2 3) ∧
    lookupAL "other" (update_pointer_position (add_pointer (engineNew 0) ptrC9)
        "mv" 1 2 3).pointers = lookupAL "other" (add_pointer (engineNew 0) ptrC9).pointers := by
  have happ := c9_update_pointer_position_isolated (add_pointer (engineNew 0) ptrC9) "mv" 1 2 3
  exact ⟨by decide, happ.2.1 ptrC9 (by decide), happ.2.2.1 "other" (by decide)⟩

end PQWasm
